import Mathlib

/-!
Verification of the graph mutation and versioning engine of the
project_lightweight repository (an ONNX model optimizer desktop app).

The development shallowly embeds the JavaScript source under src/:
the frontend zustand store (src/frontend/src/store.js), the panel
handlers (PruningPanel.jsx, ModelUploader), the Electron preload
surface (preload.cjs), the IPC main handlers (electron main module),
and the Python bridge request construction (python-bridge.js).

Parts of the engine that live in the Python backend, which is not part
of the repository snapshot (the remove-node safety check and the
bounded undo history), are modelled from the specification; their doc
comments say so explicitly.
-/

namespace Lightweight

/-- Operator node of the computation graph: id, operator type, ordered
input tensor names and ordered output tensor names. -/
structure NNode where
  id : String
  op : String
  inputs : List String
  outputs : List String
deriving Repr, DecidableEq

/-- Computation graph: node list plus graph level input and output
names. Edges are implicit, derived by name matching. -/
structure GraphModel where
  nodes : List NNode
  graphInputs : List String
  graphOutputs : List String
deriving Repr, DecidableEq

/-- Errors of node removal. -/
inductive RemoveError where
  | NotFound
  | DanglingConsumer
deriving Repr, DecidableEq

/-- Nodes of the graph that list the given tensor name among their
inputs. -/
def consumersOf (g : GraphModel) (t : String) : List NNode :=
  g.nodes.filter (fun n => n.inputs.contains t)

/-- Substitute tensor name b by a in the input list of a node (the
relink step of the bypass rule). -/
def relinkNode (b a : String) (m : NNode) : NNode :=
  { m with inputs := m.inputs.map (fun t => if t = b then a else t) }

/-- Modelled from the spec: the removeNode operation of the GraphModel
component. The implementation lives in the Python backend, which is
absent from the repository snapshot; only its IPC callers are present.
Spec section 4.1: removal is permitted only if (a) no other node
consumes any of this nodes outputs, or (b) the node has exactly one
input tensor A and one output tensor B, in which case each consumer
of B is relinked by substituting B with A; in every other case the
request is rejected with DanglingConsumer. -/
def removeNodeFound (g : GraphModel) (nid : String) (n : NNode) :
    Except RemoveError GraphModel :=
  if ∀ m ∈ g.nodes.filter (fun m => m.id ≠ nid), ∀ t ∈ m.inputs, t ∉ n.outputs then
    .ok { g with nodes := g.nodes.filter (fun m => m.id ≠ nid) }
  else
    match n.inputs, n.outputs with
    | [a], [b] =>
      .ok { g with nodes := (g.nodes.filter (fun m => m.id ≠ nid)).map (relinkNode b a) }
    | _, _ => .error .DanglingConsumer

def removeNode (g : GraphModel) (nid : String) : Except RemoveError GraphModel :=
  match g.nodes.find? (fun n => n.id = nid) with
  | none => .error .NotFound
  | some n => removeNodeFound g nid n

/-- Unfolding equation of removeNode once the node has been found. -/
theorem removeNode_eq_found (g : GraphModel) (nid : String) (n : NNode)
    (hfind : g.nodes.find? (fun n => n.id = nid) = some n) :
    removeNode g nid = removeNodeFound g nid n := by
  unfold removeNode
  rw [hfind]

/-- A graph is well formed when no node lists one of its own output
names among its inputs; this follows from the topological order
invariant of the data model (spec section 3). -/
def NodesWellFormed (g : GraphModel) : Prop :=
  ∀ n ∈ g.nodes, ∀ t ∈ n.inputs, t ∉ n.outputs

instance (g : GraphModel) : Decidable (NodesWellFormed g) := by
  unfold NodesWellFormed; infer_instance

/-- C3: for every remove-node request on a well formed graph, removal
succeeds only if either no other node consumes any output of the
removed node, or the node has exactly one input and one output (the
bypass case, in which consumers are relinked to that input); when a
consumer exists and the node is not single-input single-output the
request is rejected with DanglingConsumer; and every successful result
is a graph in which no remaining node references any output of the
removed node. -/
theorem removeNode_bypass_or_reject (g : GraphModel) (nid : String) (n : NNode)
    (hwf : NodesWellFormed g)
    (hfind : g.nodes.find? (fun n => n.id = nid) = some n) :
    (∀ g', removeNode g nid = .ok g' →
      ((∀ m ∈ g.nodes.filter (fun m => m.id ≠ nid), ∀ t ∈ m.inputs, t ∉ n.outputs)
        ∨ (∃ a b, n.inputs = [a] ∧ n.outputs = [b]))
      ∧ ∀ m ∈ g'.nodes, ∀ t ∈ m.inputs, t ∉ n.outputs)
    ∧ ((¬ ∀ m ∈ g.nodes.filter (fun m => m.id ≠ nid), ∀ t ∈ m.inputs, t ∉ n.outputs) →
        (¬ ∃ a b, n.inputs = [a] ∧ n.outputs = [b]) →
        removeNode g nid = .error .DanglingConsumer) := by
  have hmem : n ∈ g.nodes := List.mem_of_find?_eq_some hfind
  have hwfn : ∀ t ∈ n.inputs, t ∉ n.outputs := hwf n hmem
  constructor
  · intro g' hok
    rw [removeNode_eq_found g nid n hfind] at hok
    unfold removeNodeFound at hok
    by_cases hsafe : ∀ m ∈ g.nodes.filter (fun m => m.id ≠ nid), ∀ t ∈ m.inputs, t ∉ n.outputs
    · rw [if_pos hsafe] at hok
      injection hok with h
      subst h
      exact ⟨Or.inl hsafe, hsafe⟩
    · rw [if_neg hsafe] at hok
      rcases hin : n.inputs with _ | ⟨a, _ | _⟩ <;>
          rcases hout : n.outputs with _ | ⟨b, _ | _⟩ <;>
          rw [hin, hout] at hok <;>
          try exact Except.noConfusion hok
      -- only the single-input single-output case survives
      injection hok with h
      subst h
      have hab : a ≠ b := by
        have ha := hwfn a (by rw [hin]; exact List.mem_singleton_self a)
        rw [hout] at ha
        simpa using ha
      refine ⟨Or.inr ⟨a, b, rfl, rfl⟩, ?_⟩
      intro m hm t ht
      simp only [List.mem_map] at hm
      rcases hm with ⟨m0, hm0, hrel⟩
      subst hrel
      unfold relinkNode at ht
      simp only [List.mem_map] at ht
      rcases ht with ⟨t0, ht0, hsub⟩
      by_cases hb : t0 = b
      · subst hsub
        simp [hb, hab]
      · subst hsub
        simp [hb]
  · intro hcons hshape
    rw [removeNode_eq_found g nid n hfind]
    unfold removeNodeFound
    rw [if_neg hcons]
    rcases hin : n.inputs with _ | ⟨a, _ | _⟩ <;>
      rcases hout : n.outputs with _ | ⟨b, _ | _⟩ <;> try rfl
    exact absurd ⟨a, b, hin, hout⟩ hshape

/-- Example graph for the witness: x -> A(Conv) -> y -> B(Relu) -> z. -/
def gWitness : GraphModel :=
  { nodes := [⟨"A", "Conv", ["x"], ["y"]⟩, ⟨"B", "Relu", ["y"], ["z"]⟩]
  , graphInputs := ["x"]
  , graphOutputs := ["z"] }

/-- Witness for C3: instantiating the theorem at the concrete graph
gWitness and node B, whose removal has no live consumer. -/
theorem removeNode_bypass_or_reject_witness :
    (NodesWellFormed gWitness
      ∧ gWitness.nodes.find? (fun n => n.id = "B") = some ⟨"B", "Relu", ["y"], ["z"]⟩)
    ∧ ((∀ g', removeNode gWitness "B" = .ok g' →
        ((∀ m ∈ gWitness.nodes.filter (fun m => m.id ≠ "B"), ∀ t ∈ m.inputs,
            t ∉ (NNode.mk "B" "Relu" ["y"] ["z"]).outputs)
          ∨ (∃ a b, (NNode.mk "B" "Relu" ["y"] ["z"]).inputs = [a]
              ∧ (NNode.mk "B" "Relu" ["y"] ["z"]).outputs = [b]))
        ∧ ∀ m ∈ g'.nodes, ∀ t ∈ m.inputs, t ∉ (NNode.mk "B" "Relu" ["y"] ["z"]).outputs)
      ∧ ((¬ ∀ m ∈ gWitness.nodes.filter (fun m => m.id ≠ "B"), ∀ t ∈ m.inputs,
            t ∉ (NNode.mk "B" "Relu" ["y"] ["z"]).outputs) →
          (¬ ∃ a b, (NNode.mk "B" "Relu" ["y"] ["z"]).inputs = [a]
              ∧ (NNode.mk "B" "Relu" ["y"] ["z"]).outputs = [b]) →
          removeNode gWitness "B" = .error .DanglingConsumer)) :=
  ⟨⟨by decide, by decide⟩,
    removeNode_bypass_or_reject gWitness "B" ⟨"B", "Relu", ["y"], ["z"]⟩ (by decide) (by decide)⟩

/-! Frontend store (src/frontend/src/store.js, the revision defining
updateGraphData) and the panel handlers that drive it. The store is
generic in the type J of JSON payloads, which the frontend treats as
opaque data. -/

/-- Node selected in the graph viewer, as stored by setSelectedNode
(the panel reads its id and label fields). -/
structure SelNode where
  id : String
  label : String
deriving Repr, DecidableEq

/-- Modelled from the spec: a history entry as kept by the store.
The store revision under src defines no history field, although
PruningPanel reads addToHistory from it and App.jsx renders
state.history items through their description field; spec section 3
says a HistoryEntry carries a human readable description. -/
structure HistoryEntry where
  description : String
deriving Repr, DecidableEq

/-- Maximum undo depth; spec section 4.3 names 20 as the configured
bound. -/
def maxHistory : Nat := 20

/-- Modelled from the spec: SessionHistory.push appends the entry and,
if the depth exceeds the configured max, evicts the oldest entries. -/
def pushHistory (h : List HistoryEntry) (e : HistoryEntry) : List HistoryEntry :=
  let h2 := h ++ [e]
  if h2.length > maxHistory then h2.drop (h2.length - maxHistory) else h2

/-- Zustand store state of the revision with model path tracking:
modelJson mirrors graphData, plus selection, current model path,
session id, metrics, and the spec modelled history list. -/
structure StoreState (J : Type) where
  modelJson : Option J
  graphData : Option J
  selectedNode : Option SelNode
  currentModel : Option String
  sessionId : Option String
  originalMetrics : Option J
  optimizedMetrics : Option J
  history : List HistoryEntry
deriving Repr, DecidableEq

/-- Store actions of the revision defining updateGraphData, plus the
spec modelled addToHistory used by PruningPanel. fetchGraphData is
indexed by the outcome of the dummy graph request: some data on
success, none when the request fails. -/
inductive StoreAction (J : Type) where
  | updateGraphData (d : Option J)
  | setSelectedNode (n : Option SelNode)
  | setCurrentModel (m : Option String)
  | setSessionId (i : Option String)
  | setOriginalMetrics (m : Option J)
  | setOptimizedMetrics (m : Option J)
  | clearMetrics
  | fetchGraphData (r : Option J)
  | addToHistory (desc : String)

/-- One store action applied to the state, following store.js: every
action sets exactly the fields its set call names. -/
def storeStep {J : Type} (s : StoreState J) : StoreAction J → StoreState J
  | .updateGraphData d => { s with modelJson := d, graphData := d }
  | .setSelectedNode n => { s with selectedNode := n }
  | .setCurrentModel m => { s with currentModel := m }
  | .setSessionId i => { s with sessionId := i }
  | .setOriginalMetrics m => { s with originalMetrics := m }
  | .setOptimizedMetrics m => { s with optimizedMetrics := m }
  | .clearMetrics => { s with originalMetrics := none, optimizedMetrics := none }
  | .fetchGraphData r =>
      match r with
      | some d => { s with modelJson := some d, graphData := some d }
      | none => s
  | .addToHistory desc => { s with history := pushHistory s.history ⟨desc⟩ }

/-- Outcome of an IPC invocation as seen by the renderer: the handler
returns success true with data, or success false with an error
message. -/
inductive IpcResult (J : Type) where
  | ok (data : J)
  | err (msg : String)
deriving Repr, DecidableEq

/-- Description string built by handlePrune for the history log. -/
def mkPruneDesc (method ratioText : String) : String :=
  "Pruned model (" ++ method ++ ", " ++ ratioText ++ ")"

/-- The handlePrune flow of PruningPanel (session based revision):
bail out when no model is loaded; otherwise record the history entry
first, then await the prune IPC call; on success install the returned
graph JSON via updateGraphData; on failure only report the error. -/
def handlePrune {J : Type} (s : StoreState J) (method ratioText : String)
    (result : IpcResult J) : StoreState J :=
  match s.currentModel with
  | none => s
  | some _ =>
    let s1 := storeStep s (.addToHistory (mkPruneDesc method ratioText))
    match result with
    | .ok data => storeStep s1 (.updateGraphData (some data))
    | .err _ => s1

/-- Label used in the remove-node history entry: label, falling back
to id, falling back to a fixed string, matching the JS truthiness
chain. -/
def nodeLabelOf (n : SelNode) : String :=
  if n.label ≠ "" then n.label
  else if n.id ≠ "" then n.id
  else "Unknown Node"

/-- The handleRemoveNode flow of PruningPanel (session based
revision): bail out without a model or selection or when the user
rejects the confirm dialog; otherwise record the history entry first,
then await the remove-node IPC call; on success install the returned
graph JSON and clear the selection; on failure only report the
error. -/
def handleRemoveNode {J : Type} (s : StoreState J) (confirmed : Bool)
    (result : IpcResult J) : StoreState J :=
  match s.currentModel, s.selectedNode with
  | some _, some n =>
    if confirmed then
      let s1 := storeStep s (.addToHistory ("Removed node " ++ nodeLabelOf n))
      match result with
      | .ok data => storeStep (storeStep s1 (.updateGraphData (some data))) (.setSelectedNode none)
      | .err _ => s1
    else s
  | _, _ => s

/-! ModelUploader (handleFileProcessing) and the App level reset and
unload handlers. -/

/-- File chosen in the uploader: either a filesystem path string (the
Electron dialog) or a web File object whose name may be absent. -/
inductive FileInput where
  | path (p : String)
  | webFile (name : Option String)
deriving Repr, DecidableEq

/-- JS String.prototype.endsWith, embedded over the character list of
the string so that it evaluates by kernel reduction. -/
def jsEndsWith (s suffix : String) : Bool :=
  List.isSuffixOf suffix.data s.data

/-- JS split on the slash and backslash character class, embedded over
the character list: separators are removed and adjacent separators
yield empty components, matching the JS semantics. -/
def jsSplitPath (p : String) : List String :=
  (p.data.splitOnP (fun c => c = '/' ∨ c = '\\')).map List.asString

/-- The file name the uploader derives: for a path, the last component
after splitting on slashes and backslashes (split never yields an
empty list, so pop always returns an element); for a web file, its
optional name. -/
def fileNameOf : FileInput → Option String
  | .path p => (jsSplitPath p).getLast?
  | .webFile name => name

/-- JS truthiness of the uploader name guard: undefined and the empty
string are falsy. -/
def jsTruthyName : Option String → Bool
  | none => false
  | some s => s ≠ ""

/-- The current model value stored after a successful upload: the path
itself, or the web file name with the literal fallback. -/
def currentModelNameOf : FileInput → String
  | .path p => p
  | .webFile name => if jsTruthyName name then name.getD "" else "uploaded_model.onnx"

/-- Outcome of the upload request: the response body on fulfilment or
an error. -/
inductive UploadOutcome (J : Type) where
  | ok (body : J)
  | err (msg : String)
deriving Repr, DecidableEq

/-- The handleFileProcessing flow of ModelUploader: reject names that
are missing, empty or do not end in .onnx before any request is
issued; otherwise upload, install the response body as the graph data,
store the session id from the body when it is truthy, and record the
current model. The Bool of the result says whether an upload request
was issued; sidOf reads the session_id field of the opaque response
body. -/
def handleFileProcessing {J : Type} (sidOf : J → Option String)
    (s : StoreState J) (file : FileInput) (outcome : UploadOutcome J) :
    Bool × StoreState J :=
  match fileNameOf file with
  | none => (false, s)
  | some fn =>
    if fn = "" ∨ jsEndsWith fn ".onnx" = false then (false, s)
    else
      match outcome with
      | .err _ => (true, s)
      | .ok body =>
        let s1 := storeStep s (.updateGraphData (some body))
        let s2 :=
          if jsTruthyName (sidOf body) then storeStep s1 (.setSessionId (sidOf body)) else s1
        (true, storeStep s2 (.setCurrentModel (some (currentModelNameOf file))))

/-- The handleReset flow of App.jsx: when confirmed, clear the graph
data and the current model path; nothing else is touched. -/
def handleReset {J : Type} (confirmed : Bool) (s : StoreState J) : StoreState J :=
  if confirmed then
    storeStep (storeStep s (.updateGraphData none)) (.setCurrentModel none)
  else s

/-- The handleUnload flow of App.jsx: identical to reset apart from
the dialog message. -/
def handleUnload {J : Type} (confirmed : Bool) (s : StoreState J) : StoreState J :=
  if confirmed then
    storeStep (storeStep s (.updateGraphData none)) (.setCurrentModel none)
  else s

/-! Electron boundary: the preload surface, the IPC main handlers and
the Python bridge request construction. -/

/-- Keys of the electronAPI object exposed by preload.cjs via
contextBridge (the duplicate saveRemoteModel literal collapses to one
key). -/
def electronAPISurface : List String :=
  ["uploadModel", "quantizeModel", "pruneModel", "removeNode", "runBenchmark",
   "saveRemoteModel", "undo", "getModelInfo", "healthCheck", "getDummyGraph",
   "getGraph", "selectFile", "saveFile", "readFile", "writeFile",
   "platform", "isElectron"]

/-- JS values crossing the IPC boundary: strings, numbers (modelled as
rationals), objects as field lists, and undefined. -/
inductive JsVal where
  | str (s : String)
  | num (q : ℚ)
  | obj (fields : List (String × JsVal))
  | undefinedVal

/-- Test for the undefined value, used for the strict inequality
checks against undefined in the bridge. -/
def JsVal.isUndefinedVal : JsVal → Bool
  | .undefinedVal => true
  | _ => false

/-- Property access on a JS value: objects look the key up, every
other value yields undefined. -/
def getProp (v : JsVal) (k : String) : JsVal :=
  match v with
  | .obj fs => (fs.lookup k).getD .undefinedVal
  | _ => .undefinedVal

/-- The preload pruneModel entry declares a single parameter args and
forwards it as the IPC payload, so any further positional arguments of
the renderer call are dropped. -/
def preloadPruneModel (callArgs : List JsVal) : JsVal :=
  callArgs.headD .undefinedVal

/-- URL of the Python backend, python-bridge.js. -/
def BACKEND_URL : String := "http://127.0.0.1:8000"

/-- The endpointMap literal of callPythonAPI in python-bridge.js. -/
def endpointMap : List (String × String) :=
  [("health", "/api/health"),
   ("dummy-graph", "/api/dummy-graph"),
   ("upload-model", "/api/upload-model"),
   ("quantize", "/api/quantize"),
   ("prune", "/api/prune-model"),
   ("remove-node", "/api/remove-node"),
   ("run-benchmark", "/api/benchmark"),
   ("model-info", "/api/model-info"),
   ("get-graph", "/api/graph")]

/-- The url computed by callPythonAPI: the mapped path when the
endpoint is known, otherwise the endpoint string itself, appended to
the backend base url. -/
def apiUrl (endpoint : String) : String :=
  BACKEND_URL ++ ((endpointMap.lookup endpoint).getD endpoint)

/-- HTTP method of the issued request. -/
inductive HttpMethod where
  | get
  | post
deriving Repr, DecidableEq

/-- The request callPythonAPI issues: method, target url, query
parameters and multipart form field names. -/
structure BridgeRequest where
  method : HttpMethod
  url : String
  query : List (String × JsVal)
  formFields : List String

/-- The branch structure of callPythonAPI: upload and model-info post
the model file; quantize, prune, remove-node and run-benchmark post
the model file with a ratio query parameter only when the data object
carries a defined ratio; get-graph issues a GET with the session id as
query parameter; every other endpoint, undo included, falls to a plain
GET of the computed url with no parameters and no payload. -/
def callPythonAPIRequest (endpoint : String) (data : JsVal) : BridgeRequest :=
  if endpoint = "upload-model" then
    { method := .post, url := apiUrl endpoint, query := [], formFields := ["model_file"] }
  else if endpoint = "quantize" ∨ endpoint = "prune" ∨ endpoint = "remove-node"
      ∨ endpoint = "run-benchmark" then
    let ratioParams :=
      if endpoint = "prune" ∧ (getProp data "ratio").isUndefinedVal = false then
        [("ratio", getProp data "ratio")]
      else []
    let nodeField :=
      if endpoint = "remove-node" ∧ (getProp data "nodeName").isUndefinedVal = false then
        ["node_name"]
      else []
    let benchFields :=
      if endpoint = "run-benchmark" ∧ (getProp data "dataset").isUndefinedVal = false then
        ["dataset", "limit"]
      else []
    { method := .post, url := apiUrl endpoint, query := ratioParams
    , formFields := ["model_file"] ++ nodeField ++ benchFields }
  else if endpoint = "model-info" then
    { method := .post, url := apiUrl endpoint, query := [], formFields := ["model_file"] }
  else if endpoint = "get-graph" then
    { method := .get, url := apiUrl endpoint
    , query :=
        match getProp data "sessionId" with
        | .undefinedVal => []
        | v => [("session_id", v)]
    , formFields := [] }
  else
    { method := .get, url := apiUrl endpoint, query := [], formFields := [] }

/-- Query parameters of the prune request as issued for a renderer
side pruneModel call with the given positional arguments: the preload
layer keeps the first argument only, the prune-model IPC handler
passes it through to callPythonAPI as the data object. -/
def pruneRequestOfCall (callArgs : List JsVal) : BridgeRequest :=
  callPythonAPIRequest "prune" (preloadPruneModel callArgs)

/-- Top level bindings of the Electron main module: its import list
(electron names, path, fileURLToFilePath, fs and the three bridge
functions) plus the module level declarations. No binding for axios
exists in this module. -/
def mainModuleBindings : List String :=
  ["app", "BrowserWindow", "ipcMain", "dialog", "path", "fileURLToPath", "fs",
   "startPythonBackend", "stopPythonBackend", "callPythonAPI",
   "__filename", "__dirname", "mainWindow", "isDev", "createWindow"]

/-- Outcome of the save-remote-model IPC handler. -/
inductive SaveOutcome where
  | canceled
  | saved (filePath : String)
  | failure (err : String)
deriving Repr, DecidableEq

/-- The save-remote-model IPC handler: show the save dialog and return
canceled when the user closes it; otherwise evaluate the axios
download expression. Evaluating the identifier axios throws a
ReferenceError when the module has no binding for it, and the catch
block turns the exception into a failure result; only with a binding
in scope would the downloaded bytes be written to the chosen path. -/
def saveRemoteModelHandler (_sessionId : String) (dialogChoice : Option String) :
    SaveOutcome :=
  match dialogChoice with
  | none => .canceled
  | some fp =>
    if mainModuleBindings.contains "axios" then .saved fp
    else .failure "axios is not defined"

end Lightweight

namespace Lightweight

set_option maxRecDepth 8192 in
/-- C2: the claim that undo returns the previous graph for a non
empty history fails on the bridge code. The undo endpoint is missing
from endpointMap, so callPythonAPI appends the raw endpoint name to
the base url without a separating slash, producing a target that is
not a path under the backend root, and the fallback branch issues a
plain GET that carries no session id and no payload; the undo request
therefore can never reach an undo endpoint of the backend. -/
theorem undo_request_malformed :
    endpointMap.lookup "undo" = none
    ∧ apiUrl "undo" = "http://127.0.0.1:8000undo"
    ∧ apiUrl "undo" ≠ "http://127.0.0.1:8000/undo"
    ∧ apiUrl "undo" ≠ "http://127.0.0.1:8000/api/undo"
    ∧ (callPythonAPIRequest "undo" (.obj [("sessionId", .str "session-1")])).method = .get
    ∧ (callPythonAPIRequest "undo" (.obj [("sessionId", .str "session-1")])).query = []
    ∧ (callPythonAPIRequest "undo" (.obj [("sessionId", .str "session-1")])).formFields = [] := by
  refine ⟨by decide, by decide, by decide, by decide, rfl, rfl, rfl⟩

set_option maxRecDepth 8192 in
/-- C4: the claim that the chosen prune ratio is delivered as the
ratio query parameter fails on the cited code. The renderer calls
pruneModel with two positional arguments, the preload entry declares a
single parameter and forwards only the first, so the bridge receives
the model path string as its data object, finds its ratio property
undefined, and issues the prune request with an empty query: the ratio
never reaches the backend. -/
theorem prune_ratio_dropped (model : String) (r : ℚ) :
    preloadPruneModel [.str model, .num r] = .str model
    ∧ getProp (.str model) "ratio" = .undefinedVal
    ∧ (pruneRequestOfCall [.str model, .num r]).query = []
    ∧ (pruneRequestOfCall [.str model, .num r]).url = "http://127.0.0.1:8000/api/prune-model" := by
  refine ⟨rfl, rfl, rfl, rfl⟩

/-- C6: the claim that save returns the serialized model bytes for
every valid session fails on the main module code: the
save-remote-model handler references axios, the module never imports
or declares it, so once a target path is chosen the handler always
throws and returns a failure, for every session id. -/
theorem saveRemoteModel_always_fails (sessionId filePath : String) :
    "axios" ∉ mainModuleBindings
    ∧ saveRemoteModelHandler sessionId (some filePath) = .failure "axios is not defined" := by
  refine ⟨by decide, rfl⟩

/-- C9: in the store revision defining updateGraphData, every action
preserves the invariant that modelJson and graphData are equal: the
two actions that touch the graph fields set both to the same value,
and no other action touches either. -/
theorem storeStep_preserves_graph_mirror {J : Type} (s : StoreState J)
    (a : StoreAction J) (hinv : s.modelJson = s.graphData) :
    (storeStep s a).modelJson = (storeStep s a).graphData := by
  cases a with
  | updateGraphData d => rfl
  | setSelectedNode n => exact hinv
  | setCurrentModel m => exact hinv
  | setSessionId i => exact hinv
  | setOriginalMetrics m => exact hinv
  | setOptimizedMetrics m => exact hinv
  | clearMetrics => exact hinv
  | fetchGraphData r => cases r with
    | some d => rfl
    | none => exact hinv
  | addToHistory desc => exact hinv

/-- Witness for C9: the invariant holds on a concrete state and is
preserved by a concrete action. -/
theorem storeStep_preserves_graph_mirror_witness :
    ((⟨some 5, some 5, none, some "m.onnx", some "s1", none, none, []⟩ :
        StoreState Nat).modelJson
      = (⟨some 5, some 5, none, some "m.onnx", some "s1", none, none, []⟩ :
        StoreState Nat).graphData)
    ∧ ((storeStep (⟨some 5, some 5, none, some "m.onnx", some "s1", none, none, []⟩ :
          StoreState Nat) (.setSessionId (some "s2"))).modelJson
        = (storeStep (⟨some 5, some 5, none, some "m.onnx", some "s1", none, none, []⟩ :
          StoreState Nat) (.setSessionId (some "s2"))).graphData) :=
  ⟨rfl, storeStep_preserves_graph_mirror
    (⟨some 5, some 5, none, some "m.onnx", some "s1", none, none, []⟩ : StoreState Nat)
    (.setSessionId (some "s2")) rfl⟩

/-- Appending on the right preserves the suffix relation. -/
theorem isSuffix_append_right {α : Type} {l1 l2 : List α} (t : List α)
    (hs : List.IsSuffix l1 l2) : List.IsSuffix (l1 ++ t) (l2 ++ t) := by
  rcases hs with ⟨u, hu⟩
  exact ⟨u, by rw [← List.append_assoc, hu]⟩

/-- One push keeps the depth bound, computes the new length exactly,
and keeps the result a suffix of the appended list. -/
theorem pushHistory_step (h : List HistoryEntry) (e : HistoryEntry)
    (hle : h.length ≤ maxHistory) :
    (pushHistory h e).length = min maxHistory (h.length + 1)
    ∧ List.IsSuffix (pushHistory h e) (h ++ [e]) := by
  unfold pushHistory
  by_cases hgt : (h ++ [e]).length > maxHistory
  · rw [if_pos hgt]
    constructor
    · rw [List.length_drop]
      simp only [List.length_append, List.length_singleton] at *
      omega
    · exact List.drop_suffix _ _
  · rw [if_neg hgt]
    constructor
    · simp only [List.length_append, List.length_singleton] at *
      omega
    · exact List.suffix_refl _

/-- C5: for every sequence of pushes starting from a history within
the depth bound, the history length never exceeds the configured
maximum, the resulting length is exactly the minimum of the bound and
the total number of entries ever present, and the resulting history is
a suffix of the full append sequence — so the evicted entries are
always the oldest ones (FIFO eviction). -/
theorem pushHistory_bound_fifo (h : List HistoryEntry) (es : List HistoryEntry)
    (hle : h.length ≤ maxHistory) :
    (es.foldl pushHistory h).length ≤ maxHistory
    ∧ (es.foldl pushHistory h).length = min maxHistory (h.length + es.length)
    ∧ List.IsSuffix (es.foldl pushHistory h) (h ++ es) := by
  induction es generalizing h with
  | nil =>
    refine ⟨hle, ?_, ?_⟩
    · simp only [List.foldl_nil, List.length_nil, Nat.add_zero]
      exact (Nat.min_eq_right hle).symm
    · rw [List.append_nil, List.foldl_nil]
  | cons e es ih =>
    have hstep := pushHistory_step h e hle
    have hle2 : (pushHistory h e).length ≤ maxHistory := by
      rw [hstep.1]; exact Nat.min_le_left _ _
    have ih2 := ih (pushHistory h e) hle2
    refine ⟨ih2.1, ?_, ?_⟩
    · rw [List.foldl_cons, ih2.2.1, hstep.1]
      simp only [List.length_cons]
      omega
    · rw [List.foldl_cons]
      have h1 : List.IsSuffix (pushHistory h e ++ es) ((h ++ [e]) ++ es) :=
        isSuffix_append_right es hstep.2
      have h2 : (h ++ [e]) ++ es = h ++ e :: es := by
        rw [List.append_assoc, List.singleton_append]
      rw [h2] at h1
      exact ih2.2.2.trans h1

/-- Witness for C5: pushing 25 entries onto an empty history. -/
theorem pushHistory_bound_fifo_witness :
    (([] : List HistoryEntry).length ≤ maxHistory)
    ∧ (((List.replicate 25 (HistoryEntry.mk "edit")).foldl pushHistory
          ([] : List HistoryEntry)).length ≤ maxHistory
      ∧ ((List.replicate 25 (HistoryEntry.mk "edit")).foldl pushHistory
          ([] : List HistoryEntry)).length
        = min maxHistory (([] : List HistoryEntry).length
            + (List.replicate 25 (HistoryEntry.mk "edit")).length)
      ∧ List.IsSuffix ((List.replicate 25 (HistoryEntry.mk "edit")).foldl pushHistory
          ([] : List HistoryEntry))
          (([] : List HistoryEntry) ++ List.replicate 25 (HistoryEntry.mk "edit"))) :=
  ⟨by decide,
    pushHistory_bound_fifo [] (List.replicate 25 (HistoryEntry.mk "edit")) (by decide)⟩

/-- Concrete pre-state for the C1 counterexample: a loaded model, a
selected node, and an empty history. -/
def sEditFail : StoreState Nat :=
  { modelJson := some 1, graphData := some 1, selectedNode := some ⟨"conv1", "Conv"⟩
  , currentModel := some "model.onnx", sessionId := some "s1"
  , originalMetrics := none, optimizedMetrics := none, history := [] }

/-- C1 counterexample: an edit whose result reports failure does not
leave the session state unchanged — the prune handler records the
history entry before awaiting the result, so the failed prune leaves
the graph untouched but grows the history from depth 0 to depth 1. -/
theorem failed_prune_changes_state :
    handlePrune sEditFail "magnitude" "0.3" (.err "InvalidResultingGraph") ≠ sEditFail
    ∧ (handlePrune sEditFail "magnitude" "0.3" (.err "InvalidResultingGraph")).graphData
        = sEditFail.graphData
    ∧ (handlePrune sEditFail "magnitude" "0.3" (.err "InvalidResultingGraph")).history.length = 1
    ∧ sEditFail.history.length = 0 := by
  refine ⟨by decide, by decide, by decide, by decide⟩

/-- C1 amended: for every prune or remove-node edit whose result
reports failure, the current graph and every other store field are
unchanged except the history, which gains the entry recorded before
the call was awaited — so the history depth is not unchanged, as one
entry is recorded even for a failed edit. -/
theorem failed_edit_keeps_graph_records_history {J : Type}
    (mj gd : Option J) (n : SelNode) (p : String) (sid : Option String)
    (om1 om2 : Option J) (h : List HistoryEntry) (method ratioText msg : String) :
    (handlePrune (⟨mj, gd, some n, some p, sid, om1, om2, h⟩ : StoreState J)
        method ratioText (.err msg)
      = ⟨mj, gd, some n, some p, sid, om1, om2,
          pushHistory h ⟨mkPruneDesc method ratioText⟩⟩)
    ∧ (handleRemoveNode (⟨mj, gd, some n, some p, sid, om1, om2, h⟩ : StoreState J)
        true (.err msg)
      = ⟨mj, gd, some n, some p, sid, om1, om2,
          pushHistory h ⟨"Removed node " ++ nodeLabelOf n⟩⟩) :=
  ⟨rfl, rfl⟩

/-- Concrete state for the C8 counterexample: a session is loaded. -/
def sLoaded : StoreState Nat :=
  { modelJson := some 3, graphData := some 3, selectedNode := none
  , currentModel := some "net.onnx", sessionId := some "sess-7"
  , originalMetrics := none, optimizedMetrics := none, history := [] }

/-- C8 counterexample: the operation surface exposed to the UI layer
contains no destroy operation, and after a confirmed unload or reset
the stored session id is still associated with the client state. -/
theorem no_destroy_session_survives_unload :
    "destroy" ∉ electronAPISurface
    ∧ "destroySession" ∉ electronAPISurface
    ∧ "destroyModel" ∉ electronAPISurface
    ∧ (handleUnload true sLoaded).sessionId = some "sess-7"
    ∧ (handleReset true sLoaded).sessionId = some "sess-7" := by
  refine ⟨by decide, by decide, by decide, by decide, by decide⟩

/-- C8 amended: the exposed operation surface includes no destroy
operation; a confirmed unload or reset clears the graph data and the
current model path but leaves the stored session id untouched. -/
theorem unload_clears_graph_keeps_session {J : Type}
    (mj gd : Option J) (sel : Option SelNode) (cm : Option String)
    (sid : Option String) (om1 om2 : Option J) (h : List HistoryEntry) :
    (handleUnload true (⟨mj, gd, sel, cm, sid, om1, om2, h⟩ : StoreState J)).sessionId = sid
    ∧ (handleUnload true (⟨mj, gd, sel, cm, sid, om1, om2, h⟩ : StoreState J)).modelJson = none
    ∧ (handleUnload true (⟨mj, gd, sel, cm, sid, om1, om2, h⟩ : StoreState J)).graphData = none
    ∧ (handleUnload true (⟨mj, gd, sel, cm, sid, om1, om2, h⟩ : StoreState J)).currentModel
        = none
    ∧ handleReset true (⟨mj, gd, sel, cm, sid, om1, om2, h⟩ : StoreState J)
        = handleUnload true (⟨mj, gd, sel, cm, sid, om1, om2, h⟩ : StoreState J)
    ∧ "destroy" ∉ electronAPISurface :=
  ⟨rfl, rfl, rfl, rfl, rfl, by decide⟩

/-- C7: for every upload that succeeds and returns a body carrying a
truthy session id, the uploader installs that body as the current
graph (both graph fields) and that session id as the stored session
id, overwriting whatever session id was stored before; the current
model is set from the chosen file. -/
theorem upload_success_installs_graph_and_session {J : Type}
    (sidOf : J → Option String) (s : StoreState J) (file : FileInput)
    (body : J) (fn sid : String)
    (hfn : fileNameOf file = some fn)
    (honnx : jsEndsWith fn ".onnx" = true)
    (hsid : sidOf body = some sid)
    (hne : sid ≠ "") :
    (handleFileProcessing sidOf s file (.ok body)).1 = true
    ∧ (handleFileProcessing sidOf s file (.ok body)).2.graphData = some body
    ∧ (handleFileProcessing sidOf s file (.ok body)).2.modelJson = some body
    ∧ (handleFileProcessing sidOf s file (.ok body)).2.sessionId = some sid
    ∧ (handleFileProcessing sidOf s file (.ok body)).2.currentModel
        = some (currentModelNameOf file) := by
  have hfne : fn ≠ "" := by
    intro hempty
    rw [hempty] at honnx
    exact absurd honnx (by decide)
  have hcond : ¬ (fn = "" ∨ jsEndsWith fn ".onnx" = false) := by
    push_neg
    rw [honnx]
    exact ⟨hfne, by decide⟩
  have htruthy : jsTruthyName (some sid) = true := by
    simpa [jsTruthyName] using hne
  simp only [handleFileProcessing, hfn, if_neg hcond, hsid, htruthy, if_pos]
  simp [storeStep]

/-- Concrete session id reader for the witness: the body is a pair of
an optional session id and a payload number. -/
def sidOfPair (b : Option String × Nat) : Option String := b.1

/-- Concrete pre-state for the upload witnesses, holding a stale
session id from an earlier upload. -/
def sLoadedPair : StoreState (Option String × Nat) :=
  { modelJson := some (some "old-sess", 1), graphData := some (some "old-sess", 1)
  , selectedNode := none, currentModel := some "old.onnx", sessionId := some "old-sess"
  , originalMetrics := none, optimizedMetrics := none, history := [] }

/-- Witness for C7: a fresh upload overwrites the stale session id of
an earlier upload. -/
theorem upload_success_installs_graph_and_session_witness :
    (fileNameOf (.path "/tmp/models/net.onnx") = some "net.onnx"
      ∧ jsEndsWith "net.onnx" ".onnx" = true
      ∧ sidOfPair (some "sess-2", 7) = some "sess-2"
      ∧ "sess-2" ≠ "")
    ∧ ((handleFileProcessing sidOfPair sLoadedPair (.path "/tmp/models/net.onnx")
          (.ok (some "sess-2", 7))).1 = true
      ∧ (handleFileProcessing sidOfPair sLoadedPair (.path "/tmp/models/net.onnx")
          (.ok (some "sess-2", 7))).2.graphData = some (some "sess-2", 7)
      ∧ (handleFileProcessing sidOfPair sLoadedPair (.path "/tmp/models/net.onnx")
          (.ok (some "sess-2", 7))).2.modelJson = some (some "sess-2", 7)
      ∧ (handleFileProcessing sidOfPair sLoadedPair (.path "/tmp/models/net.onnx")
          (.ok (some "sess-2", 7))).2.sessionId = some "sess-2"
      ∧ (handleFileProcessing sidOfPair sLoadedPair (.path "/tmp/models/net.onnx")
          (.ok (some "sess-2", 7))).2.currentModel
          = some (currentModelNameOf (.path "/tmp/models/net.onnx"))) :=
  ⟨⟨by decide, by decide, rfl, by decide⟩,
    upload_success_installs_graph_and_session sidOfPair sLoadedPair
      (.path "/tmp/models/net.onnx") (some "sess-2", 7) "net.onnx" "sess-2"
      (by decide) (by decide) rfl (by decide)⟩

/-- C10: for every file chosen in the uploader whose derived name does
not end in .onnx, handleFileProcessing issues no upload request and
returns the store state unchanged. -/
theorem non_onnx_file_rejected {J : Type} (sidOf : J → Option String)
    (s : StoreState J) (file : FileInput) (outcome : UploadOutcome J) (fn : String)
    (hfn : fileNameOf file = some fn)
    (hnot : jsEndsWith fn ".onnx" = false) :
    handleFileProcessing sidOf s file outcome = (false, s) := by
  simp only [handleFileProcessing, hfn]
  rw [if_pos]
  exact Or.inr (by simp [hnot])

/-- Witness for C10: choosing a text file leaves the store alone. -/
theorem non_onnx_file_rejected_witness :
    (fileNameOf (.path "/docs/readme.txt") = some "readme.txt"
      ∧ jsEndsWith "readme.txt" ".onnx" = false)
    ∧ handleFileProcessing sidOfPair sLoadedPair (.path "/docs/readme.txt")
        (.ok (some "sess-9", 4)) = (false, sLoadedPair) :=
  ⟨⟨by decide, by decide⟩,
    non_onnx_file_rejected sidOfPair sLoadedPair (.path "/docs/readme.txt")
      (.ok (some "sess-9", 4)) "readme.txt" (by decide) (by decide)⟩

end Lightweight
